import Mathlib

/-!
Verification of the tool-dispatch core of picoclaw.

This development gives a shallow embedding, in Lean 4, of the parts of the
picoclaw source that the specification's claims concern:

* the SSE JSON-RPC client (`pkg/mcp/config.go`): connection handshake,
  `endpoint` event handling in the read loop, and `sendRequest`;
* the stdio JSON-RPC client (`pkg/mcp/adapter.go`): `sendRequest`'s
  pending-table discipline, the read loop, and close semantics;
* the provider manager (`pkg/mcp/adapter.go`): `StartAndRegister`'s
  all-or-nothing registration and its client-type dispatch;
* the remote tool adapter (`pkg/mcp/adapter.go`);
* the sandbox filesystem (`pkg/tools/read_file.go`): `validatePath`,
  `getSafeRelPath`, atomic write-and-rename, and the error normalization
  of the `os.Root`-confined operations.

Effects that Go performs through the environment (HTTP transfers, the
process context, the on-disk filesystem, `os.Root` primitives) are made
explicit parameters: each embedded operation takes the environment's
behaviour as an argument and returns the state it leaves behind, so that
every branch of the Go code corresponds to a branch of the Lean function.
-/

/-- Whether `pat` occurs as a contiguous run inside `l`. -/
def charsContain (pat : List Char) : List Char → Bool
  | [] => pat.isEmpty
  | c :: t => pat.isPrefixOf (c :: t) || charsContain pat t

/-- `strings.Contains`: whether `pat` occurs as a contiguous substring of `s`. -/
def strContains (s pat : String) : Bool :=
  charsContain pat.data s.data

/-- `strings.HasPrefix s pat`. -/
def strStartsWith (s pat : String) : Bool :=
  pat.data.isPrefixOf s.data

/-- Drops the first `n` characters of `s`. -/
def strDrop (s : String) (n : Nat) : String :=
  ⟨s.data.drop n⟩

/-- The whitespace characters `strings.TrimSpace` strips. -/
def isSpaceChar (c : Char) : Bool :=
  c == ' ' || c == '\t' || c == '\n' || c == '\r'

/-- `strings.TrimSpace`. -/
def strTrim (s : String) : String :=
  ⟨((s.data.dropWhile isSpaceChar).reverse.dropWhile isSpaceChar).reverse⟩

/-- `strings.TrimRight s "\r"`. -/
def strTrimRightCR (s : String) : String :=
  ⟨(s.data.reverse.dropWhile (· == '\r')).reverse⟩

/-- JSON-RPC error object (`pkg/mcp` `JSONRPCError`). -/
structure JSONRPCError where
  code : Int
  message : String
deriving DecidableEq, Repr

/-- JSON-RPC message (`pkg/mcp` `JSONRPCMessage`).  The raw `params` and
`result` payloads are kept as opaque strings. -/
structure JSONRPCMessage where
  jsonrpc : String := "2.0"
  id : Option String := none
  method : String := ""
  params : Option String := none
  result : Option String := none
  error : Option JSONRPCError := none
deriving DecidableEq, Repr

/-! ## SSE client (`pkg/mcp/config.go`) -/

/-- Splits at the first occurrence of `sep`: the parts before and after. -/
def splitOnce (sep : List Char) : List Char → Option (List Char × List Char)
  | [] => if sep.isEmpty then some ([], []) else none
  | c :: t =>
    if sep.isPrefixOf (c :: t) then some ([], (c :: t).drop sep.length)
    else
      match splitOnce sep t with
      | some s => some (c :: s.1, s.2)
      | none => none

/-- Everything before the first `/`. -/
def takeUntilSlash : List Char → List Char
  | [] => []
  | c :: t => if c == '/' then [] else c :: takeUntilSlash t

/-- The scheme-and-host part of a URL, e.g. `"http://h"` of `"http://h/a/b"`. -/
def schemeHost (u : String) : String :=
  match splitOnce "://".data u.data with
  | some s => ⟨s.1⟩ ++ "://" ++ ⟨takeUntilSlash s.2⟩
  | none => u

/-- Everything up to and including the last `/`. -/
def urlDirname (u : String) : String :=
  ⟨(u.data.reverse.dropWhile (· != '/')).reverse⟩

/-- Models `SSEClient.resolvePostURL`: `url.Parse` of the base SSE URL and
the endpoint data, then `base.ResolveReference(ref)`, for the three URL
shapes the protocol uses (absolute URL, absolute path, relative path). -/
def resolvePostURL (base ref : String) : String :=
  if strContains ref "://" then ref
  else if strStartsWith ref "/" then schemeHost base ++ ref
  else urlDirname base ++ ref

/-- The mutable state of an `SSEClient` that the claims observe. -/
structure SSEClientState where
  sseURL : String
  postURL : String
  /-- whether the `postReady` channel has been closed -/
  postReadyClosed : Bool
  nextID : Nat
  /-- keys of the `pending` map -/
  pending : List String
  /-- whether the client's internal context has been cancelled -/
  ctxDone : Bool
deriving DecidableEq, Repr

/-- The client literal built at the top of `NewSSEClient`: `postURL` starts
out as the SSE endpoint itself, `postReady` is a fresh (open) channel. -/
def initialSSEState (sseEndpoint : String) : SSEClientState :=
  { sseURL := sseEndpoint
  , postURL := sseEndpoint
  , postReadyClosed := false
  , nextID := 0
  , pending := []
  , ctxDone := false }

/-- The accumulation state of `SSEClient.readLoop`, together with the fields
of the client the loop writes. -/
structure SSEReadState where
  currentEvent : String
  dataBuffer : String
  postURL : String
  postReadyClosed : Bool
  /-- raw event payloads handed to `handleMessage` -/
  dispatched : List String
deriving DecidableEq, Repr

/-- One iteration of the scanner loop in `SSEClient.readLoop` on one line. -/
def processSSELine (sseURL : String) (st : SSEReadState) (line : String) : SSEReadState :=
  let line := strTrimRightCR line
  if line == "" then
    if st.currentEvent == "endpoint" then
      { st with
        postURL := resolvePostURL sseURL st.dataBuffer
        postReadyClosed := true
        currentEvent := ""
        dataBuffer := "" }
    else if st.dataBuffer.length > 0 then
      { st with
        dispatched := st.dispatched ++ [st.dataBuffer]
        currentEvent := ""
        dataBuffer := "" }
    else
      { st with currentEvent := "", dataBuffer := "" }
  else if strStartsWith line "event:" then
    { st with currentEvent := strTrim (strDrop line 6) }
  else if strStartsWith line "data:" then
    { st with dataBuffer := st.dataBuffer ++ strTrim (strDrop line 5) }
  else
    st

/-- `SSEClient.readLoop` over a whole stream of lines, starting from a fresh
accumulation state and the client's current `postURL` / ready flag. -/
def sseReadLoop (sseURL : String) (postURL : String) (postReadyClosed : Bool)
    (lines : List String) : SSEReadState :=
  lines.foldl (processSSELine sseURL)
    { currentEvent := ""
    , dataBuffer := ""
    , postURL := postURL
    , postReadyClosed := postReadyClosed
    , dispatched := [] }

/-- Outcome of the handshake `select` at the end of `NewSSEClient`. -/
inductive SSEHandshake
  | ready
  | timeout
  | cancelled
deriving DecidableEq, Repr

/-- The `select` at the end of `NewSSEClient`, waiting on `postReady`, a
15-second timer, and the caller's context.  `endpointAt` / `ctxCancelAt`
give the times (in seconds from entering the select) at which the read loop
would close `postReady`, respectively at which the caller's context is
cancelled; `none` means never.  A case that is ready on entry wins. -/
def handshakeSelect (postReadyClosedAtEntry : Bool)
    (endpointAt ctxCancelAt : Option Nat) : SSEHandshake :=
  if postReadyClosedAtEntry then .ready
  else
    let te := endpointAt.getD (15 + 1)
    let tc := ctxCancelAt.getD (15 + 1)
    if te ≤ tc && te ≤ 15 then .ready
    else if tc ≤ 15 then .cancelled
    else .timeout

/-- The HTTP response the server gives to the initial SSE `GET`. -/
structure SSEConnectResponse where
  statusCode : Nat
  contentType : String
  body : String
deriving DecidableEq, Repr

/-- The environment's behaviour for the initial SSE `GET`. -/
inductive SSEConnect
  | failed (msg : String)
  | succeeded (resp : SSEConnectResponse)
deriving DecidableEq, Repr

/-- `NewSSEClient` (`pkg/mcp/config.go`): connect, check the status code and
content type, then — as in the source — close `postReady` (config.go line
`close(c.postReady)` before `go c.readLoop()`), start the read loop, and run
the handshake `select`.  Because `postReady` is closed before the select
runs, the select's `postReady` case is ready on entry. -/
def newSSEClient (sseEndpoint : String) (conn : SSEConnect)
    (endpointAt ctxCancelAt : Option Nat) : Except String SSEClientState :=
  match conn with
  | .failed m => .error ("failed to connect to SSE endpoint: " ++ m)
  | .succeeded resp =>
    if resp.statusCode ≠ 200 then
      .error ("unexpected status code " ++ toString resp.statusCode ++ ". Body: " ++ resp.body)
    else if ¬ strContains resp.contentType "text/event-stream" then
      .error ("server did not return an SSE stream (got " ++ resp.contentType ++
        "). Response: " ++ resp.body)
    else
      -- `close(c.postReady)` is executed unconditionally here, before the
      -- read loop is started and before the select below runs.
      let st := { initialSSEState sseEndpoint with postReadyClosed := true }
      match handshakeSelect st.postReadyClosed endpointAt ctxCancelAt with
      | .ready => .ok st
      | .timeout => .error "timeout (15s) waiting for 'endpoint' event from remote SSE server"
      | .cancelled => .error "context cancelled while waiting for SSE endpoint"

/-- What happens while `SSEClient.sendRequest` waits on the pending slot. -/
inductive SSEAwait
  | callerCancelled
  | clientClosed
  | response (msg : JSONRPCMessage)
deriving DecidableEq, Repr

/-- The environment's behaviour for the POST leg of `SSEClient.sendRequest`. -/
inductive SSESendEnv
  | newRequestErr (msg : String)
  | postErr (msg : String)
  | postStatus (code : Nat) (body : String) (await : SSEAwait)
deriving DecidableEq, Repr

/-- Result of one `SSEClient.sendRequest` call: the client state it leaves,
the URL (if any) the JSON-RPC request was POSTed to, and the returned value. -/
structure SSESendResult where
  state : SSEClientState
  postedTo : Option String
  result : Except String JSONRPCMessage
deriving Repr

/-- `SSEClient.sendRequest` (`pkg/mcp/config.go`): generate the next id,
install the pending slot, POST the request to `c.postURL` (the deferred
`delete(c.pending, id)` runs on every exit path), then wait on the caller's
context, the client's context, and the response channel. -/
def sseSendRequest (st : SSEClientState) (env : SSESendEnv) : SSESendResult :=
  let id := toString (st.nextID + 1)
  let stInstalled := { st with nextID := st.nextID + 1, pending := st.pending ++ [id] }
  let finish := fun (posted : Option String) (r : Except String JSONRPCMessage) =>
    { state := { stInstalled with pending := stInstalled.pending.filter (fun k => k != id) }
    , postedTo := posted
    , result := r : SSESendResult }
  match env with
  | .newRequestErr m => finish none (.error m)
  | .postErr m => finish (some st.postURL) (.error m)
  | .postStatus code body await =>
    if code ≠ 200 ∧ code ≠ 202 then
      finish (some st.postURL)
        (.error ("POST request failed with status: " ++ toString code ++ ". Server says: " ++ body))
    else
      finish (some st.postURL)
        (match await with
         | .callerCancelled => .error "context canceled"
         | .clientClosed => .error "sse connection closed"
         | .response m =>
           match m.error with
           | some e => .error ("rpc error " ++ toString e.code ++ ": " ++ e.message)
           | none => .ok m)

/-! ## Stdio client (`pkg/mcp/adapter.go`) -/

/-- The mutable state of a `StdioClient` that the claims observe. -/
structure StdioClientState where
  nextID : Nat
  /-- keys of the `pending` map -/
  pending : List String
  /-- whether the client's internal context has been cancelled -/
  ctxDone : Bool
deriving DecidableEq, Repr

/-- What happens while `StdioClient.sendRequest` waits on the pending slot. -/
inductive StdioAwait
  | callerCancelled
  | clientClosed
  | response (msg : JSONRPCMessage)
deriving DecidableEq, Repr

/-- The environment's behaviour for one `StdioClient.sendRequest` call. -/
inductive StdioSendEnv
  | marshalParamsErr (msg : String)
  | marshalReqErr (msg : String)
  | writeErr (msg : String)
  | await (a : StdioAwait)
deriving DecidableEq, Repr

/-- Result of one `StdioClient.sendRequest` call. -/
structure StdioSendResult where
  state : StdioClientState
  result : Except String JSONRPCMessage
deriving Repr

/-- `StdioClient.sendRequest` (`pkg/mcp/adapter.go`): generate the next id;
marshal the params and the request (both before the slot is installed);
install the slot, with a deferred `delete(c.pending, id)` covering every
later exit; write the framed request to stdin; then wait on the caller's
context, the client's context, and the response channel. -/
def stdioSendRequest (st : StdioClientState) (env : StdioSendEnv) : StdioSendResult :=
  let id := toString (st.nextID + 1)
  let stId := { st with nextID := st.nextID + 1 }
  match env with
  | .marshalParamsErr m => { state := stId, result := .error m }
  | .marshalReqErr m => { state := stId, result := .error m }
  | .writeErr m =>
    { state := { stId with pending := (stId.pending ++ [id]).filter (fun k => k != id) }
    , result := .error ("failed to write request: " ++ m) }
  | .await a =>
    { state := { stId with pending := (stId.pending ++ [id]).filter (fun k => k != id) }
    , result :=
        match a with
        | .callerCancelled => .error "context canceled"
        | .clientClosed => .error "client closed while waiting for response"
        | .response m =>
          match m.error with
          | some e => .error ("rpc error " ++ toString e.code ++ ": " ++ e.message)
          | none => .ok m }

/-- The observable effect of `StdioClient.readLoop` consuming its whole
stdout stream.  `frames` are the parse results of the successive stdout
lines (`none`: `json.Unmarshal` failed, the line is skipped). -/
structure StdioReadEvents where
  /-- `(id, msg)` pairs delivered into pending slots -/
  delivered : List (String × JSONRPCMessage)
  /-- ids of responses that found no pending slot -/
  unknownIds : List String
  /-- methods of peer messages treated as notifications -/
  peerMethods : List String
  /-- whether the loop has exited and run its deferred `c.cancel()` -/
  ctxDone : Bool
deriving DecidableEq, Repr

/-- `StdioClient.readLoop` (`pkg/mcp/adapter.go`) over the whole stdout
stream: dispatch each decodable frame by id, then — once the scanner stops
at EOF — run the deferred `c.cancel()`. -/
def stdioReadLoop (pending : List String) (frames : List (Option JSONRPCMessage)) :
    StdioReadEvents :=
  let ev := frames.foldl
    (fun (acc : StdioReadEvents) f =>
      match f with
      | none => acc
      | some msg =>
        match msg.id with
        | some id =>
          if id ∈ pending then { acc with delivered := acc.delivered ++ [(id, msg)] }
          else { acc with unknownIds := acc.unknownIds ++ [id] }
        | none =>
          if msg.method ≠ "" then { acc with peerMethods := acc.peerMethods ++ [msg.method] }
          else acc)
    { delivered := [], unknownIds := [], peerMethods := [], ctxDone := false }
  { ev with ctxDone := true }

/-- The branches of the `select` in `StdioClient.sendRequest` that are ready,
given which of the three awaited channels can fire: the caller's context,
the client's context, and the request's response channel.  The select blocks
exactly when this list is empty; Go picks among the ready branches. -/
def stdioSelectReady (callerDone clientDone : Bool) (chanMsg : Option JSONRPCMessage) :
    List StdioAwait :=
  (if callerDone then [.callerCancelled] else []) ++
  (if clientDone then [.clientClosed] else []) ++
  (match chanMsg with
   | some m => [.response m]
   | none => [])

/-! ## Provider manager and remote tool adapter (`pkg/mcp/adapter.go`) -/

/-- A tool definition as returned by an MCP server (`MCPToolDefinition`). -/
structure MCPToolDefinition where
  name : String
  description : String
  /-- opaque JSON schema for the arguments -/
  inputSchema : String
deriving DecidableEq, Repr

/-- `MCPToolAdapter` (`pkg/mcp/adapter.go`): a client handle, the tool's
original remote name, and the (renamed) definition. -/
structure MCPToolAdapter where
  originalName : String
  definition : MCPToolDefinition
deriving DecidableEq, Repr

/-- `MCPToolAdapter.Name`: the name of the stored definition. -/
def adapterName (a : MCPToolAdapter) : String :=
  a.definition.name

/-- `MCPToolAdapter.IsDeferred`: always true for remote tools. -/
def adapterIsDeferred (_ : MCPToolAdapter) : Bool :=
  true

/-- `MCPToolAdapter.Execute` forwards to `client.CallTool` under this name. -/
def adapterForwardsAs (a : MCPToolAdapter) : String :=
  a.originalName

/-- `ServerConfig` (`pkg/mcp/adapter.go`). -/
structure ServerConfig where
  name : String
  type : String
  url : String
  headers : List (String × String)
  cmd : String
  args : List String
  env : List String
deriving DecidableEq, Repr

/-- Which client `Manager.StartAndRegister` builds for a config. -/
inductive ClientKind
  | stdio (cmd : String) (args env : List String)
  | sse (url : String)
  | http (url : String)
deriving DecidableEq, Repr

/-- The client-type dispatch of `Manager.StartAndRegister`: `"sse"` and
`"http"` select the remote clients; every other `cfg.Type` falls into the
`else` branch, which spawns `cfg.Cmd` as a stdio server. -/
def buildClientKind (cfg : ServerConfig) : ClientKind :=
  if cfg.type == "sse" then .sse cfg.url
  else if cfg.type == "http" then .http cfg.url
  else .stdio cfg.cmd cfg.args cfg.env

/-- The environment's behaviour for one provider start: whether client
construction fails, whether the `initialize` handshake fails, and what
`tools/list` returns. -/
structure ProviderEnv where
  createErr : Option String
  initErr : Option String
  listResult : Except String (List MCPToolDefinition)
deriving Repr

/-- `NewHTTPClient` cannot fail, so a creation error only applies to the
stdio and SSE constructors. -/
def createErrFor (kind : ClientKind) (env : ProviderEnv) : Option String :=
  match kind with
  | .http _ => none
  | _ => env.createErr

/-- The manager's state: the `clients` map and the tool registry it
registers adapters into. -/
structure ManagerState where
  clients : List (String × ClientKind)
  registry : List MCPToolAdapter
deriving DecidableEq, Repr

/-- Modelled from the spec: `ToolRegistry.Register` (`pkg/tools`, whose body
is not among the analysed sources) inserts the tool into the registry's
name-to-tool mapping; the manager calls it once per remote definition. -/
def registerTool (reg : List MCPToolAdapter) (a : MCPToolAdapter) : List MCPToolAdapter :=
  reg ++ [a]

/-- The adapter built in `StartAndRegister`'s registration loop for one
definition: the definition's name is prefixed with `<alias>_` and the
original name is kept for forwarding. -/
def mkRegisteredAdapter (alias0 : String) (d : MCPToolDefinition) : MCPToolAdapter :=
  { originalName := d.name
  , definition := { d with name := alias0 ++ "_" ++ d.name } }

/-- Result of one `Manager.StartAndRegister` call. -/
structure StartResult where
  state : ManagerState
  /-- whether `client.Close()` was called on the newly built client -/
  closedClient : Bool
  error : Option String
deriving Repr

/-- `Manager.StartAndRegister` (`pkg/mcp/adapter.go`): reject a live alias;
build the client by `cfg.Type`; run the `initialize` handshake; list the
tools; register one namespaced adapter per definition; record the client. -/
def startAndRegister (st : ManagerState) (cfg : ServerConfig) (env : ProviderEnv) :
    StartResult :=
  if (st.clients.filter (fun e => e.1 == cfg.name)) ≠ [] then
    { state := st, closedClient := false
    , error := some ("mcp server " ++ cfg.name ++ " is already running") }
  else
    let kind := buildClientKind cfg
    match createErrFor kind env with
    | some e =>
      { state := st, closedClient := false
      , error := some ("failed to connect to " ++ cfg.name ++ ": " ++ e) }
    | none =>
      match env.initErr with
      | some e =>
        { state := st, closedClient := true
        , error := some ("mcp initialization failed for " ++ cfg.name ++ ": " ++ e) }
      | none =>
        match env.listResult with
        | .error e =>
          { state := st, closedClient := true
          , error := some ("failed to list tools from " ++ cfg.name ++ ": " ++ e) }
        | .ok defs =>
          { state :=
              { clients := st.clients ++ [(cfg.name, kind)]
              , registry := defs.foldl (fun r d => registerTool r (mkRegisteredAdapter cfg.name d)) st.registry }
          , closedClient := false
          , error := none }

/-! ## Paths and the sandbox filesystem (`pkg/tools/read_file.go`)

Go paths are modelled by their slash-separated components.  A `GoPath`
carries the absolute/relative distinction; components may still contain
`"."` and `".."` until cleaned.  `filepath.Clean`, `Abs`, `Join`, `Dir`,
`Rel` and `IsLocal` are given on this representation, and `EvalSymlinks`
runs against an explicit filesystem of directories, files and symlinks. -/

/-- A slash-separated Go path: absolute or relative, with its components. -/
structure GoPath where
  isAbs : Bool
  comps : List String
deriving DecidableEq, Repr

/-- The empty string as a path. -/
def emptyGoPath : GoPath := { isAbs := false, comps := [] }

/-- Renders a path the way Go prints it in error messages. -/
def goPathString (p : GoPath) : String :=
  (if p.isAbs then "/" else "") ++ String.intercalate "/" p.comps

/-- `filepath.Clean` on the components of an absolute path: `"."` vanishes
and `".."` pops the previous component (or vanishes at the root). -/
def cleanAbs (cs : List String) : List String :=
  cs.foldl
    (fun acc c =>
      if c == "." || c == "" then acc
      else if c == ".." then acc.dropLast
      else acc ++ [c])
    []

/-- `filepath.Clean` on the components of a relative path: as `cleanAbs`,
except that leading `".."` components are kept. -/
def cleanRel (cs : List String) : List String :=
  cs.foldl
    (fun acc c =>
      if c == "." || c == "" then acc
      else if c == ".." then
        match acc.getLast? with
        | some l => if l == ".." then acc ++ [".."] else acc.dropLast
        | none => [".."]
      else acc ++ [c])
    []

/-- `filepath.Abs` relative to the working directory `cwd` (itself given as
cleaned absolute components); the result is cleaned, as in Go. -/
def goAbs (cwd : List String) (p : GoPath) : List String :=
  if p.isAbs then cleanAbs p.comps else cleanAbs (cwd ++ p.comps)

/-- Strips the longest common prefix of two component lists. -/
def dropCommonPrefix : List String → List String → List String × List String
  | x :: a, y :: b =>
    if x == y then dropCommonPrefix a b else (x :: a, y :: b)
  | a, b => (a, b)

/-- `filepath.Rel base target` for cleaned absolute component lists: climb
out of what remains of the base, then descend into the target. -/
def relComps (base target : List String) : List String :=
  let s := dropCommonPrefix base target
  List.replicate s.1.length ".." ++ s.2

/-- `filepath.IsLocal` on a relative component list: clean it and check that
it does not climb out (`".."` first).  The cleaned empty list stands for
`"."`, which `IsLocal` accepts. -/
def isLocalComps (cs : List String) : Bool :=
  match cleanRel cs with
  | [] => true
  | c :: _ => c != ".."

/-- `isWithinWorkspace` (`pkg/tools/read_file.go`): the relative path from
the workspace to the candidate exists and is local — for cleaned absolute
component lists this is exactly the prefix test. -/
def isWithinWorkspace (candidate workspace : List String) : Bool :=
  workspace.isPrefixOf candidate

/-- One filesystem object: a directory, a regular file, or a symlink. -/
inductive FsEntry
  | dir
  | file
  | symlink (target : GoPath)
deriving DecidableEq, Repr

/-- A filesystem: resolved absolute component paths mapped to entries. -/
abbrev FileSys := List (List String × FsEntry)

def fsEntryLookup (fs : FileSys) (p : List String) : Option FsEntry :=
  match fs.find? (fun e => e.1 == p) with
  | some e => some e.2
  | none => none

/-- Errors of `filepath.EvalSymlinks` the embedding distinguishes. -/
inductive FsErr
  | notExist
  | tooManyLinks
deriving DecidableEq, Repr

/-- Walks components until the path ends, a component is missing, or a
symlink is met; `".."` is applied lexically to the (already resolved)
prefix, as in Go's `walkSymlinks`. -/
inductive WalkStep
  | done (resolved : List String)
  | notFound
  | link (resolved : List String) (target : GoPath) (rest : List String)
deriving DecidableEq, Repr

def walkNoLinks (fs : FileSys) (resolved : List String) : List String → WalkStep
  | [] => .done resolved
  | c :: rest =>
    if c == "." then walkNoLinks fs resolved rest
    else if c == ".." then walkNoLinks fs resolved.dropLast rest
    else
      match fsEntryLookup fs (resolved ++ [c]) with
      | none => .notFound
      | some .dir => walkNoLinks fs (resolved ++ [c]) rest
      | some .file => walkNoLinks fs (resolved ++ [c]) rest
      | some (.symlink t) => .link resolved t rest

/-- Follows at most `fuel` symlinks (Go allows 255), splicing each link's
target into the remaining components. -/
def walkSymlinks (fs : FileSys) (fuel : Nat) (resolved rest : List String) :
    Except FsErr (List String) :=
  match walkNoLinks fs resolved rest with
  | .done r => .ok r
  | .notFound => .error .notExist
  | .link res t rest' =>
    match fuel with
    | 0 => .error .tooManyLinks
    | f + 1 =>
      if t.isAbs then walkSymlinks fs f [] (t.comps ++ rest')
      else walkSymlinks fs f res (t.comps ++ rest')

/-- `filepath.EvalSymlinks` on a cleaned absolute component list. -/
def evalSymlinks (fs : FileSys) (p : List String) : Except FsErr (List String) :=
  walkSymlinks fs 255 [] p

/-- The loop body of `resolveExistingAncestor`, with enough fuel to reach
the root; the fuel never runs out for the lengths it is invoked at. -/
def resolveAncestorGo (fs : FileSys) : Nat → List String → Except FsErr (List String)
  | 0, _ => .error .notExist
  | fuel + 1, current =>
    match evalSymlinks fs current with
    | .ok r => .ok r
    | .error e =>
      if e != .notExist then .error e
      else if current == [] then .error .notExist
      else resolveAncestorGo fs fuel current.dropLast

/-- `resolveExistingAncestor` (`pkg/tools/read_file.go`): resolve the
nearest existing ancestor of a (cleaned absolute) path. -/
def resolveExistingAncestor (fs : FileSys) (path : List String) : Except FsErr (List String) :=
  resolveAncestorGo fs (path.length + 1) path

/-- The `(string, error)` pair `validatePath` returns. -/
structure VPResult where
  path : GoPath
  err : Option String
deriving DecidableEq, Repr

/-- The cleaned absolute form of the input that `validatePath` computes:
absolute inputs are cleaned, relative ones are joined onto the absolute
workspace. -/
def validateAbsPath (cwd : List String) (path workspace : GoPath) : List String :=
  if path.isAbs then cleanAbs path.comps else cleanAbs (goAbs cwd workspace ++ path.comps)

/-- `validatePath` (`pkg/tools/read_file.go`): resolve the workspace and the
input to cleaned absolute paths; under restriction, require lexical
containment, then containment of the symlink-resolved target (or of its
nearest existing ancestor when the target does not exist) in the
symlink-resolved workspace. -/
def validatePath (fs : FileSys) (cwd : List String) (path workspace : GoPath)
    (restrict : Bool) : VPResult :=
  if workspace == emptyGoPath then
    { path := path, err := some "workspace is not defined" }
  else
    let absWorkspace := goAbs cwd workspace
    let absPath := validateAbsPath cwd path workspace
    if restrict then
      if ¬ isWithinWorkspace absPath absWorkspace then
        { path := emptyGoPath, err := some "access denied: path is outside the workspace" }
      else
        let workspaceReal :=
          match evalSymlinks fs absWorkspace with
          | .ok r => r
          | .error _ => absWorkspace
        match evalSymlinks fs absPath with
        | .ok resolved =>
          if ¬ isWithinWorkspace resolved workspaceReal then
            { path := emptyGoPath, err := some "access denied: symlink resolves outside workspace" }
          else
            { path := { isAbs := true, comps := absPath }, err := none }
        | .error .notExist =>
          match resolveExistingAncestor fs absPath.dropLast with
          | .ok parentResolved =>
            if ¬ isWithinWorkspace parentResolved workspaceReal then
              { path := emptyGoPath, err := some "access denied: symlink resolves outside workspace" }
            else
              { path := { isAbs := true, comps := absPath }, err := none }
          | .error .notExist =>
            { path := { isAbs := true, comps := absPath }, err := none }
          | .error _ =>
            { path := emptyGoPath, err := some "failed to resolve path" }
        | .error _ =>
          { path := emptyGoPath, err := some "failed to resolve path" }
    else
      { path := { isAbs := true, comps := absPath }, err := none }

/-- `getSafeRelPath` (`pkg/tools/read_file.go`): clean the input; make an
absolute input relative to the (absolute) workspace; reject non-local
results.  The original input is echoed in the escape error.
`safeRelComps` is the relative form the function computes before the
locality check. -/
def safeRelComps (workspace path : GoPath) : List String :=
  if path.isAbs then relComps (cleanAbs workspace.comps) (cleanAbs path.comps)
  else cleanRel path.comps

def getSafeRelPath (workspace path : GoPath) : Except String (List String) :=
  if workspace == emptyGoPath then .error "workspace is not defined"
  else
    let rel := safeRelComps workspace path
    if ¬ isLocalComps rel then .error ("path escapes workspace: " ++ goPathString path)
    else .ok rel

/-- File contents. -/
abbrev Bytes := List Nat

/-- A flat view of the files the write operations touch, keyed by path. -/
abbrev FileMap := List (String × Bytes)

def fmLookup (fsm : FileMap) (p : String) : Option Bytes :=
  match fsm.find? (fun e => e.1 == p) with
  | some e => some e.2
  | none => none

def fmSet (fsm : FileMap) (p : String) (d : Bytes) : FileMap :=
  fsm.filter (fun e => e.1 != p) ++ [(p, d)]

def fmRemove (fsm : FileMap) (p : String) : FileMap :=
  fsm.filter (fun e => e.1 != p)

/-- The failures the environment can inject into one write-and-rename run:
`MkdirAll` on the parent, the write of the temp file (possibly leaving an
incomplete temp file behind), and the rename over the target. -/
structure WriteEnv (ε : Type) where
  mkdirFail : Option ε
  writeTmpFail : Option (Option Bytes × ε)
  renameFail : Option ε

/-- What a write run reports: the files left behind, the temp name it
formed (if it got that far) and the error it returned. -/
structure FsWriteResult where
  files : FileMap
  tmpName : Option String
  err : Option String
deriving Repr

/-- `hostFs.WriteFile` (`pkg/tools/read_file.go`): `MkdirAll` the parent,
write `<path>.<nanos>.tmp`, rename it over `path`; every failure removes
the temp file and returns an error. -/
def hostFsWriteFile (fsm : FileMap) (path : String) (data : Bytes) (nanos : Nat)
    (env : WriteEnv String) : FsWriteResult :=
  match env.mkdirFail with
  | some m =>
    { files := fsm, tmpName := none
    , err := some ("failed to create parent directories: " ++ m) }
  | none =>
    let tmpPath := path ++ "." ++ toString nanos ++ ".tmp"
    match env.writeTmpFail with
    | some le =>
      -- os.WriteFile failed; whatever it left at tmpPath is removed
      let after :=
        match le.1 with
        | some d => fmSet fsm tmpPath d
        | none => fsm
      { files := fmRemove after tmpPath, tmpName := some tmpPath
      , err := some ("failed to write temp file: " ++ le.2) }
    | none =>
      let written := fmSet fsm tmpPath data
      match env.renameFail with
      | some m =>
        { files := fmRemove written tmpPath, tmpName := some tmpPath
        , err := some ("failed to replace original file: " ++ m) }
      | none =>
        -- os.Rename(tmpPath, path) atomically moves the temp file onto path
        { files := fmSet (fmRemove written tmpPath) path data
        , tmpName := some tmpPath, err := none }

/-- The errors `os.Root` primitives produce, with the message text the
normalization in `sandboxFs.ReadFile` matches on. -/
inductive RootErr
  | notExist
  | permDenied
  | escapesParent
  | other (msg : String)
deriving DecidableEq, Repr

def rootErrMsg : RootErr → String
  | .notExist => "file does not exist"
  | .permDenied => "permission denied"
  | .escapesParent => "openat: path escapes from parent"
  | .other m => m

/-- The per-operation context of a `sandboxFs`: its workspace and whether
`os.OpenRoot` on it fails. -/
structure SandboxCtx where
  workspace : GoPath
  openRootErr : Option String
deriving Repr

/-- `sandboxFs.ReadFile` (`pkg/tools/read_file.go`): run through the root
handle; `prim` is what `root.ReadFile` returns.  Not-found and
permission/escape errors are rewritten; escape detection matches on the
error text, exactly as the source does. -/
def sandboxFsReadFile (cx : SandboxCtx) (path : GoPath) (prim : Except RootErr Bytes) :
    Except String Bytes :=
  if cx.workspace == emptyGoPath then .error "workspace is not defined"
  else
    match cx.openRootErr with
    | some m => .error ("failed to open workspace: " ++ m)
    | none =>
      match getSafeRelPath cx.workspace path with
      | .error e => .error e
      | .ok _ =>
        match prim with
        | .ok content => .ok content
        | .error re =>
          if re == .notExist then
            .error ("failed to read file: file not found: " ++ rootErrMsg re)
          else if re == .permDenied || strContains (rootErrMsg re) "escapes from parent" ||
              strContains (rootErrMsg re) "permission denied" then
            .error ("failed to read file: access denied: " ++ rootErrMsg re)
          else
            .error ("failed to read file: " ++ rootErrMsg re)

/-- Renders a cleaned relative component list the way Go writes it (the
empty list is `"."`). -/
def relString (rel : List String) : String :=
  if rel == [] then "." else String.intercalate "/" rel

/-- `filepath.Dir` of a cleaned relative path. -/
def relDirString (rel : List String) : String :=
  if rel.dropLast == [] then "." else String.intercalate "/" rel.dropLast

/-- `sandboxFs.WriteFile` (`pkg/tools/read_file.go`): resolve the safe
relative path, `MkdirAll` the parent inside the root when it is not `"."`
or `"/"`, then write-and-rename `<relPath>.<nanos>.tmp` through the root
handle; failures remove the temp file.  The `FileMap` is keyed by paths
relative to the root. -/
def sandboxFsWriteFile (cx : SandboxCtx) (fsm : FileMap) (path : GoPath) (data : Bytes)
    (nanos : Nat) (env : WriteEnv RootErr) : FsWriteResult :=
  if cx.workspace == emptyGoPath then
    { files := fsm, tmpName := none, err := some "workspace is not defined" }
  else
    match cx.openRootErr with
    | some m =>
      { files := fsm, tmpName := none, err := some ("failed to open workspace: " ++ m) }
    | none =>
      match getSafeRelPath cx.workspace path with
      | .error e => { files := fsm, tmpName := none, err := some e }
      | .ok rel =>
        let relPath := relString rel
        let dir := relDirString rel
        let mkdirResult : Option RootErr :=
          if dir != "." && dir != "/" then env.mkdirFail else none
        match mkdirResult with
        | some e =>
          { files := fsm, tmpName := none
          , err := some ("failed to create parent directories: " ++ rootErrMsg e) }
        | none =>
          let tmpRelPath := relPath ++ "." ++ toString nanos ++ ".tmp"
          match env.writeTmpFail with
          | some le =>
            let after :=
              match le.1 with
              | some d => fmSet fsm tmpRelPath d
              | none => fsm
            { files := fmRemove after tmpRelPath, tmpName := some tmpRelPath
            , err := some ("failed to write to temp file: " ++ rootErrMsg le.2) }
          | none =>
            let written := fmSet fsm tmpRelPath data
            match env.renameFail with
            | some e =>
              { files := fmRemove written tmpRelPath, tmpName := some tmpRelPath
              , err := some ("failed to rename temp file over target: " ++ rootErrMsg e) }
            | none =>
              { files := fmSet (fmRemove written tmpRelPath) relPath data
              , tmpName := some tmpRelPath, err := none }

/-- `sandboxFs.ReadDir` (`pkg/tools/read_file.go`): list through the root
handle; the underlying error is returned as-is, with no normalization. -/
def sandboxFsReadDir (cx : SandboxCtx) (path : GoPath)
    (prim : Except RootErr (List String)) : Except String (List String) :=
  if cx.workspace == emptyGoPath then .error "workspace is not defined"
  else
    match cx.openRootErr with
    | some m => .error ("failed to open workspace: " ++ m)
    | none =>
      match getSafeRelPath cx.workspace path with
      | .error e => .error e
      | .ok _ =>
        match prim with
        | .ok entries => .ok entries
        | .error re => .error (rootErrMsg re)

/-! ## Helper lemmas -/

theorem fmLookup_remove_self (fsm : FileMap) (p : String) :
    fmLookup (fmRemove fsm p) p = none := by
  induction fsm with
  | nil => rfl
  | cons e t ih =>
    by_cases h : e.1 = p
    · simpa [fmRemove, List.filter_cons, h] using ih
    · simpa [fmRemove, fmLookup, List.filter_cons, List.find?_cons, h] using ih

theorem fmLookup_remove_ne (fsm : FileMap) (p q : String) (h : q ≠ p) :
    fmLookup (fmRemove fsm p) q = fmLookup fsm q := by
  have hpq : p ≠ q := Ne.symm h
  induction fsm with
  | nil => rfl
  | cons e t ih =>
    by_cases he : e.1 = p
    · simpa [fmRemove, fmLookup, List.filter_cons, List.find?_cons, he, hpq, h] using ih
    · by_cases heq : e.1 = q
      · simp [fmRemove, fmLookup, List.filter_cons, List.find?_cons, he, heq, hpq, h]
      · simpa [fmRemove, fmLookup, List.filter_cons, List.find?_cons, he, heq, hpq, h] using ih

theorem fmLookup_set_self (fsm : FileMap) (p : String) (d : Bytes) :
    fmLookup (fmSet fsm p d) p = some d := by
  induction fsm with
  | nil => simp [fmSet, fmLookup, List.find?_cons]
  | cons e t ih =>
    by_cases he : e.1 = p
    · simpa [fmSet, List.filter_cons, he] using ih
    · simpa [fmSet, fmLookup, List.filter_cons, List.find?_cons, he] using ih

theorem fmLookup_set_ne (fsm : FileMap) (p q : String) (d : Bytes) (h : q ≠ p) :
    fmLookup (fmSet fsm p d) q = fmLookup fsm q := by
  have hpq : p ≠ q := Ne.symm h
  induction fsm with
  | nil => simp [fmSet, fmLookup, List.find?_cons, hpq]
  | cons e t ih =>
    by_cases he : e.1 = p
    · simpa [fmSet, fmLookup, List.filter_cons, List.find?_cons, he, hpq, h] using ih
    · by_cases heq : e.1 = q
      · simp [fmSet, fmLookup, List.filter_cons, List.find?_cons, he, heq, hpq, h]
      · simpa [fmSet, fmLookup, List.filter_cons, List.find?_cons, he, heq, hpq, h] using ih

theorem foldl_registerTool (l : List MCPToolDefinition) (init : List MCPToolAdapter)
    (f : MCPToolDefinition → MCPToolAdapter) :
    l.foldl (fun r d => registerTool r (f d)) init = init ++ l.map f := by
  induction l generalizing init with
  | nil => simp
  | cons d t ih =>
    rw [List.foldl_cons, ih]
    simp [registerTool]

theorem target_ne_tmpPath (path : String) (nanos : Nat) :
    path ≠ path ++ "." ++ toString nanos ++ ".tmp" := by
  intro he
  have hl := congrArg String.length he
  have h1 : ("." : String).length = 1 := rfl
  have h4 : (".tmp" : String).length = 4 := rfl
  rw [String.length_append, String.length_append, String.length_append, h1, h4] at hl
  omega

/-! ## Theorems about the claims -/

/-- **C2.**  The claim states that when the SSE server never sends an
`endpoint` event, `NewSSEClient` fails after a 15-second wait with a
timeout error.  In the source, `close(c.postReady)` runs unconditionally
before the handshake `select`, so the select's ready case fires at once:
for a `200` `text/event-stream` response, construction succeeds immediately
whatever the endpoint arrival time and the caller's context do — the
timeout branch is unreachable.  This theorem evaluates the embedded
constructor on such a server (`endpointAt = none`: no endpoint event,
ever). -/
theorem newSSEClient_succeeds_without_endpoint_event :
    ∀ endpointAt ctxCancelAt : Option Nat,
      newSSEClient "http://srv/sse"
          (.succeeded { statusCode := 200, contentType := "text/event-stream", body := "" })
          endpointAt ctxCancelAt =
        .ok { initialSSEState "http://srv/sse" with postReadyClosed := true } := by
  intro endpointAt ctxCancelAt
  rfl

/-- **C1.**  The claim states that an RPC call issued before the server's
`endpoint` event blocks until the event arrives and is then POSTed only to
the announced endpoint URL.  In the source, construction returns before the
event (see C2) and `sendRequest` POSTs to the current `postURL`, which
until the event is processed still equals the base SSE URL: a request
issued before the event is sent, without blocking, to
`http://srv/sse` instead of the announced `http://srv/rpc`. -/
theorem sse_request_before_endpoint_posts_to_base_url :
    newSSEClient "http://srv/sse"
        (.succeeded { statusCode := 200, contentType := "text/event-stream", body := "" })
        (some 1) none =
      .ok { initialSSEState "http://srv/sse" with postReadyClosed := true } ∧
    (sseSendRequest { initialSSEState "http://srv/sse" with postReadyClosed := true }
        (.postStatus 202 "" (.response { id := some "1", result := some "ok" }))).postedTo =
      some "http://srv/sse" ∧
    (sseReadLoop "http://srv/sse" "http://srv/sse" true
        ["event: endpoint", "data: /rpc", ""]).postURL = "http://srv/rpc" ∧
    "http://srv/sse" ≠ "http://srv/rpc" := by
  refine ⟨rfl, rfl, by decide, by decide⟩

/-- **C5.**  After any `sendRequest` on a stdio or SSE client returns —
response, RPC error, write failure, caller cancellation, or client close —
the pending table no longer holds that request's id.  The stdio client's
two marshal failures return before the slot is installed, so the invariant
that fresh ids are not already pending is assumed there. -/
theorem sendRequest_removes_pending_slot
    (stS : StdioClientState) (envS : StdioSendEnv)
    (stE : SSEClientState) (envE : SSESendEnv)
    (h : toString (stS.nextID + 1) ∉ stS.pending) :
    toString (stS.nextID + 1) ∉ (stdioSendRequest stS envS).state.pending ∧
    toString (stE.nextID + 1) ∉ (sseSendRequest stE envE).state.pending := by
  constructor
  · cases envS with
    | marshalParamsErr m => exact h
    | marshalReqErr m => exact h
    | writeErr m =>
      intro hmem
      simp [stdioSendRequest, List.mem_filter] at hmem
    | await a =>
      intro hmem
      simp [stdioSendRequest, List.mem_filter] at hmem
  · cases envE with
    | newRequestErr m =>
      intro hmem
      simp [sseSendRequest, List.mem_filter] at hmem
    | postErr m =>
      intro hmem
      simp [sseSendRequest, List.mem_filter] at hmem
    | postStatus code body a =>
      intro hmem
      simp only [sseSendRequest] at hmem
      split at hmem <;> simp [List.mem_filter] at hmem

theorem sendRequest_removes_pending_slot_witness :
    toString ((⟨0, ["7"], false⟩ : StdioClientState).nextID + 1) ∉
      (stdioSendRequest ⟨0, ["7"], false⟩ (.await .clientClosed)).state.pending ∧
    toString ((⟨"u", "u", true, 0, [], false⟩ : SSEClientState).nextID + 1) ∉
      (sseSendRequest ⟨"u", "u", true, 0, [], false⟩ (.postErr "boom")).state.pending :=
  sendRequest_removes_pending_slot ⟨0, ["7"], false⟩ (.await .clientClosed)
    ⟨"u", "u", true, 0, [], false⟩ (.postErr "boom") (by decide)

/-- **C7.**  When the stdio client's stdout reaches EOF its read loop exits
and runs the deferred `c.cancel()`, so the client context is done; a
`sendRequest` whose response channel is empty and whose caller context is
alive then has exactly one ready select branch — the client-context one —
and returns the "client closed" error instead of blocking. -/
theorem stdio_eof_fails_pending_and_later_requests
    (pending : List String) (frames : List (Option JSONRPCMessage))
    (callerDone : Bool) (chanMsg : Option JSONRPCMessage) (st : StdioClientState)
    (h1 : callerDone = false) (h2 : chanMsg = none) :
    (stdioReadLoop pending frames).ctxDone = true ∧
    stdioSelectReady callerDone true chanMsg = [.clientClosed] ∧
    (stdioSendRequest st (.await .clientClosed)).result =
      .error "client closed while waiting for response" := by
  subst h1 h2
  exact ⟨rfl, rfl, rfl⟩

theorem stdio_eof_fails_pending_and_later_requests_witness :
    (stdioReadLoop ["1"] [some { id := some "2" }]).ctxDone = true ∧
    stdioSelectReady false true none = [.clientClosed] ∧
    (stdioSendRequest ⟨3, ["4"], true⟩ (.await .clientClosed)).result =
      .error "client closed while waiting for response" :=
  stdio_eof_fails_pending_and_later_requests ["1"] [some { id := some "2" }]
    false none ⟨3, ["4"], true⟩ rfl rfl

/-- **C10.**  Any `cfg.Type` other than `"sse"` and `"http"` — unknown or
empty included — falls into `StartAndRegister`'s final `else`, which spawns
`cfg.Cmd` as a stdio server; no branch rejects the type as a configuration
error. -/
theorem unknown_provider_type_spawns_stdio (cfg : ServerConfig)
    (h1 : cfg.type ≠ "sse") (h2 : cfg.type ≠ "http") :
    buildClientKind cfg = .stdio cfg.cmd cfg.args cfg.env := by
  simp [buildClientKind, h1, h2]

theorem unknown_provider_type_spawns_stdio_witness :
    buildClientKind
        { name := "p", type := "garbage", url := "", headers := []
        , cmd := "srv", args := ["-x"], env := [] } =
      .stdio "srv" ["-x"] [] :=
  unknown_provider_type_spawns_stdio _ (by decide) (by decide)

/-- **C6.**  When the client was created but the `initialize` handshake or
`tools/list` fails, `StartAndRegister` closes the client, returns the
error, registers nothing, and leaves the clients map untouched. -/
theorem startAndRegister_failure_is_all_or_nothing
    (st : ManagerState) (cfg : ServerConfig) (env : ProviderEnv)
    (hfresh : st.clients.filter (fun e => e.1 == cfg.name) = [])
    (hcreate : createErrFor (buildClientKind cfg) env = none)
    (hfail : (∃ e, env.initErr = some e) ∨ (∃ e, env.listResult = .error e)) :
    (startAndRegister st cfg env).error.isSome = true ∧
    (startAndRegister st cfg env).closedClient = true ∧
    (startAndRegister st cfg env).state = st := by
  cases hi : env.initErr with
  | some e => simp [startAndRegister, hfresh, hcreate, hi]
  | none =>
    rcases hfail with ⟨e, he⟩ | ⟨e, he⟩
    · rw [hi] at he
      exact absurd he (by simp)
    · simp [startAndRegister, hfresh, hcreate, hi, he]

theorem startAndRegister_failure_is_all_or_nothing_witness :
    (startAndRegister ⟨[], []⟩
        { name := "p", type := "http", url := "u", headers := [], cmd := "", args := [], env := [] }
        ⟨none, some "handshake failed", .ok []⟩).error.isSome = true ∧
    (startAndRegister ⟨[], []⟩
        { name := "p", type := "http", url := "u", headers := [], cmd := "", args := [], env := [] }
        ⟨none, some "handshake failed", .ok []⟩).closedClient = true ∧
    (startAndRegister ⟨[], []⟩
        { name := "p", type := "http", url := "u", headers := [], cmd := "", args := [], env := [] }
        ⟨none, some "handshake failed", .ok []⟩).state = ⟨[], []⟩ :=
  startAndRegister_failure_is_all_or_nothing ⟨[], []⟩
    { name := "p", type := "http", url := "u", headers := [], cmd := "", args := [], env := [] }
    ⟨none, some "handshake failed", .ok []⟩ rfl rfl (Or.inl ⟨"handshake failed", rfl⟩)

/-- **C9.**  On a successful start, the manager appends exactly one adapter
per remote definition to the registry; each adapter's `Name()` is
`<alias>_<originalName>`, its `IsDeferred()` is true, and its `Execute`
forwards under the original remote name. -/
theorem startAndRegister_registers_namespaced_deferred_adapters
    (st : ManagerState) (cfg : ServerConfig) (env : ProviderEnv)
    (defs : List MCPToolDefinition)
    (hfresh : st.clients.filter (fun e => e.1 == cfg.name) = [])
    (hcreate : createErrFor (buildClientKind cfg) env = none)
    (hinit : env.initErr = none)
    (hlist : env.listResult = .ok defs) :
    (startAndRegister st cfg env).state.registry =
      st.registry ++ defs.map (mkRegisteredAdapter cfg.name) ∧
    ∀ d ∈ defs,
      adapterName (mkRegisteredAdapter cfg.name d) = cfg.name ++ "_" ++ d.name ∧
      adapterIsDeferred (mkRegisteredAdapter cfg.name d) = true ∧
      adapterForwardsAs (mkRegisteredAdapter cfg.name d) = d.name := by
  constructor
  · simp [startAndRegister, hfresh, hcreate, hinit, hlist, foldl_registerTool]
  · intro d _
    exact ⟨rfl, rfl, rfl⟩

theorem startAndRegister_registers_namespaced_deferred_adapters_witness :
    (startAndRegister ⟨[], []⟩
        { name := "alias", type := "http", url := "u", headers := [], cmd := "", args := [], env := [] }
        ⟨none, none, .ok [{ name := "echo", description := "echoes", inputSchema := "obj" }]⟩).state.registry =
      [] ++ [{ name := "echo", description := "echoes", inputSchema := "obj" }].map
        (mkRegisteredAdapter "alias") ∧
    ∀ d ∈ [({ name := "echo", description := "echoes", inputSchema := "obj" } : MCPToolDefinition)],
      adapterName (mkRegisteredAdapter "alias" d) = "alias" ++ "_" ++ d.name ∧
      adapterIsDeferred (mkRegisteredAdapter "alias" d) = true ∧
      adapterForwardsAs (mkRegisteredAdapter "alias" d) = d.name :=
  startAndRegister_registers_namespaced_deferred_adapters ⟨[], []⟩
    { name := "alias", type := "http", url := "u", headers := [], cmd := "", args := [], env := [] }
    ⟨none, none, .ok [{ name := "echo", description := "echoes", inputSchema := "obj" }]⟩
    [{ name := "echo", description := "echoes", inputSchema := "obj" }] rfl rfl rfl rfl

/-- The guarantees C4 claims of the host write: the temp file is named
`<path>.<nanos>.tmp`; a failing temp write or rename leaves an error and no
temp file; a failing temp write leaves the target untouched; success
installs the data and no temp file. -/
def HostAtomicWriteOk (fsm : FileMap) (path : String) (data : Bytes) (nanos : Nat)
    (env : WriteEnv String) : Prop :=
  (env.mkdirFail = none →
    (hostFsWriteFile fsm path data nanos env).tmpName =
      some (path ++ "." ++ toString nanos ++ ".tmp")) ∧
  (∀ le, env.mkdirFail = none → env.writeTmpFail = some le →
    (hostFsWriteFile fsm path data nanos env).err.isSome = true ∧
    fmLookup (hostFsWriteFile fsm path data nanos env).files
      (path ++ "." ++ toString nanos ++ ".tmp") = none ∧
    fmLookup (hostFsWriteFile fsm path data nanos env).files path = fmLookup fsm path) ∧
  (∀ e, env.mkdirFail = none → env.writeTmpFail = none → env.renameFail = some e →
    (hostFsWriteFile fsm path data nanos env).err.isSome = true ∧
    fmLookup (hostFsWriteFile fsm path data nanos env).files
      (path ++ "." ++ toString nanos ++ ".tmp") = none) ∧
  (env.mkdirFail = none → env.writeTmpFail = none → env.renameFail = none →
    (hostFsWriteFile fsm path data nanos env).err = none ∧
    fmLookup (hostFsWriteFile fsm path data nanos env).files path = some data ∧
    fmLookup (hostFsWriteFile fsm path data nanos env).files
      (path ++ "." ++ toString nanos ++ ".tmp") = none)

/-- The same guarantees for the sandbox write, relative to the root handle:
the target key is the safe relative path and the temp file is
`<relPath>.<nanos>.tmp`. -/
def SandboxAtomicWriteOk (cx : SandboxCtx) (sfsm : FileMap) (spath : GoPath)
    (sdata : Bytes) (nanos : Nat) (senv : WriteEnv RootErr) (rel : List String) : Prop :=
  (senv.mkdirFail = none →
    (sandboxFsWriteFile cx sfsm spath sdata nanos senv).tmpName =
      some (relString rel ++ "." ++ toString nanos ++ ".tmp")) ∧
  (∀ le, senv.mkdirFail = none → senv.writeTmpFail = some le →
    (sandboxFsWriteFile cx sfsm spath sdata nanos senv).err.isSome = true ∧
    fmLookup (sandboxFsWriteFile cx sfsm spath sdata nanos senv).files
      (relString rel ++ "." ++ toString nanos ++ ".tmp") = none ∧
    fmLookup (sandboxFsWriteFile cx sfsm spath sdata nanos senv).files (relString rel) =
      fmLookup sfsm (relString rel)) ∧
  (∀ e, senv.mkdirFail = none → senv.writeTmpFail = none → senv.renameFail = some e →
    (sandboxFsWriteFile cx sfsm spath sdata nanos senv).err.isSome = true ∧
    fmLookup (sandboxFsWriteFile cx sfsm spath sdata nanos senv).files
      (relString rel ++ "." ++ toString nanos ++ ".tmp") = none) ∧
  (senv.mkdirFail = none → senv.writeTmpFail = none → senv.renameFail = none →
    (sandboxFsWriteFile cx sfsm spath sdata nanos senv).err = none ∧
    fmLookup (sandboxFsWriteFile cx sfsm spath sdata nanos senv).files (relString rel) =
      some sdata ∧
    fmLookup (sandboxFsWriteFile cx sfsm spath sdata nanos senv).files
      (relString rel ++ "." ++ toString nanos ++ ".tmp") = none)

/-- **C4.**  Both `WriteFile` implementations write the data to
`<target>.<nanoseconds>.tmp` and rename it over the target; when the temp
write or the rename fails they remove the temp file and return an error,
and a failed temp write leaves the target's prior contents unchanged. -/
theorem writeFile_atomic_write_then_rename
    (fsm : FileMap) (path : String) (data : Bytes) (nanos : Nat) (env : WriteEnv String)
    (cx : SandboxCtx) (sfsm : FileMap) (spath : GoPath) (sdata : Bytes)
    (senv : WriteEnv RootErr) (rel : List String)
    (hws : cx.workspace ≠ emptyGoPath) (hor : cx.openRootErr = none)
    (hrel : getSafeRelPath cx.workspace spath = .ok rel) :
    HostAtomicWriteOk fsm path data nanos env ∧
    SandboxAtomicWriteOk cx sfsm spath sdata nanos senv rel := by
  have hne : path ≠ path ++ "." ++ toString nanos ++ ".tmp" := target_ne_tmpPath path nanos
  have hnes : relString rel ≠ relString rel ++ "." ++ toString nanos ++ ".tmp" :=
    target_ne_tmpPath (relString rel) nanos
  constructor
  · refine ⟨?_, ?_, ?_, ?_⟩
    · intro hm
      rcases hw : env.writeTmpFail with _ | le
      · rcases hr : env.renameFail with _ | e
        · simp [hostFsWriteFile, hm, hw, hr]
        · simp [hostFsWriteFile, hm, hw, hr]
      · simp [hostFsWriteFile, hm, hw]
    · intro le hm hw
      rcases le with ⟨lo, m⟩
      cases lo with
      | none =>
        simp [hostFsWriteFile, hm, hw, fmLookup_remove_self, fmLookup_remove_ne, hne]
      | some d =>
        simp [hostFsWriteFile, hm, hw, fmLookup_remove_self, fmLookup_remove_ne,
          fmLookup_set_ne, hne]
    · intro e hm hw hr
      simp [hostFsWriteFile, hm, hw, hr, fmLookup_remove_self]
    · intro hm hw hr
      simp [hostFsWriteFile, hm, hw, hr, fmLookup_set_self, fmLookup_set_ne,
        fmLookup_remove_self, hne, Ne.symm hne]
  · refine ⟨?_, ?_, ?_, ?_⟩
    · intro hm
      rcases hw : senv.writeTmpFail with _ | le
      · rcases hr : senv.renameFail with _ | e
        · simp [sandboxFsWriteFile, hws, hor, hrel, hm, hw, hr]
        · simp [sandboxFsWriteFile, hws, hor, hrel, hm, hw, hr]
      · simp [sandboxFsWriteFile, hws, hor, hrel, hm, hw]
    · intro le hm hw
      rcases le with ⟨lo, m⟩
      cases lo with
      | none =>
        simp [sandboxFsWriteFile, hws, hor, hrel, hm, hw, fmLookup_remove_self,
          fmLookup_remove_ne, hnes]
      | some d =>
        simp [sandboxFsWriteFile, hws, hor, hrel, hm, hw, fmLookup_remove_self,
          fmLookup_remove_ne, fmLookup_set_ne, hnes]
    · intro e hm hw hr
      simp [sandboxFsWriteFile, hws, hor, hrel, hm, hw, hr, fmLookup_remove_self]
    · intro hm hw hr
      simp [sandboxFsWriteFile, hws, hor, hrel, hm, hw, hr, fmLookup_set_self,
        fmLookup_set_ne, fmLookup_remove_self, hnes, Ne.symm hnes]

theorem writeFile_atomic_write_then_rename_witness :
    HostAtomicWriteOk [("f", [0])] "f" [1] 7 ⟨none, none, none⟩ ∧
    SandboxAtomicWriteOk ⟨{ isAbs := true, comps := ["w"] }, none⟩ [] 
      { isAbs := false, comps := ["g"] } [2] 7 ⟨none, none, none⟩ ["g"] :=
  writeFile_atomic_write_then_rename [("f", [0])] "f" [1] 7 ⟨none, none, none⟩
    ⟨{ isAbs := true, comps := ["w"] }, none⟩ [] { isAbs := false, comps := ["g"] } [2]
    ⟨none, none, none⟩ ["g"] (by decide) rfl rfl

/-- **C3.**  Under restriction, whenever symlink resolution of the input's
absolute form (or, when it does not exist, of its nearest existing
ancestor) lands outside the symlink-resolved workspace, `validatePath`
returns an "access denied" error and an empty path. -/
theorem validatePath_rejects_symlink_escape
    (fs : FileSys) (cwd : List String) (path workspace : GoPath)
    (wReal r : List String)
    (hw : workspace ≠ emptyGoPath)
    (hwreal : evalSymlinks fs (goAbs cwd workspace) = .ok wReal)
    (hesc :
      (evalSymlinks fs (validateAbsPath cwd path workspace) = .ok r ∧
        isWithinWorkspace r wReal = false) ∨
      (evalSymlinks fs (validateAbsPath cwd path workspace) = .error .notExist ∧
        resolveExistingAncestor fs (validateAbsPath cwd path workspace).dropLast = .ok r ∧
        isWithinWorkspace r wReal = false)) :
    ∃ m, (validatePath fs cwd path workspace true).err = some m ∧
      strContains m "access denied" = true ∧
      (validatePath fs cwd path workspace true).path = emptyGoPath := by
  have hwb : (workspace == emptyGoPath) = false := by
    simp only [beq_eq_false_iff_ne, ne_eq]
    exact hw
  by_cases hlex :
      isWithinWorkspace (validateAbsPath cwd path workspace) (goAbs cwd workspace) = true
  · rcases hesc with ⟨he, hin⟩ | ⟨he, ha, hin⟩
    · refine ⟨"access denied: symlink resolves outside workspace", ?_, by decide, ?_⟩
      all_goals simp [validatePath, hwb, hlex, hwreal, he, hin]
    · refine ⟨"access denied: symlink resolves outside workspace", ?_, by decide, ?_⟩
      all_goals simp [validatePath, hwb, hlex, hwreal, he, ha, hin]
  · refine ⟨"access denied: path is outside the workspace", ?_, by decide, ?_⟩
    all_goals simp [validatePath, hwb, hlex]

theorem validatePath_rejects_symlink_escape_witness :
    ∃ m, (validatePath
        [ (["w"], .dir), (["w", "link"], .symlink { isAbs := true, comps := ["etc"] })
        , (["etc"], .dir), (["etc", "passwd"], .file) ]
        [] { isAbs := false, comps := ["link", "passwd"] }
        { isAbs := true, comps := ["w"] } true).err = some m ∧
      strContains m "access denied" = true ∧
      (validatePath
        [ (["w"], .dir), (["w", "link"], .symlink { isAbs := true, comps := ["etc"] })
        , (["etc"], .dir), (["etc", "passwd"], .file) ]
        [] { isAbs := false, comps := ["link", "passwd"] }
        { isAbs := true, comps := ["w"] } true).path = emptyGoPath :=
  validatePath_rejects_symlink_escape
    [ (["w"], .dir), (["w", "link"], .symlink { isAbs := true, comps := ["etc"] })
    , (["etc"], .dir), (["etc", "passwd"], .file) ]
    [] { isAbs := false, comps := ["link", "passwd"] } { isAbs := true, comps := ["w"] }
    ["w"] ["etc", "passwd"] (by decide) rfl (Or.inl ⟨rfl, rfl⟩)

/-- **C8 (counterexample).**  The claim says every escaping sandboxed
operation fails with an error containing "access denied"; but a lexical
traversal escape in a sandboxed write fails with
`path escapes workspace: ../x`, which does not contain it. -/
theorem sandbox_escape_write_error_lacks_access_denied :
    (sandboxFsWriteFile ⟨{ isAbs := true, comps := ["w"] }, none⟩ []
        { isAbs := false, comps := ["..", "x"] } [1] 5 ⟨none, none, none⟩).err =
      some "path escapes workspace: ../x" ∧
    strContains "path escapes workspace: ../x" "access denied" = false :=
  ⟨rfl, by decide⟩

/-- **C8 (amended).**  Sandboxed read, write and list on escaping paths all
fail, but the "access denied" normalization applies only to `ReadFile`'s
handling of root-handle refusals: lexical escapes are rejected by
`getSafeRelPath` with `path escapes workspace: <path>`, and root-handle
refusals in `WriteFile` and `ReadDir` surface the underlying error text
unnormalized. -/
theorem sandbox_escape_failures
    (cx : SandboxCtx) (path : GoPath) (fsm : FileMap) (data : Bytes) (nanos : Nat)
    (env : WriteEnv RootErr) (prim : Except RootErr Bytes)
    (priml : Except RootErr (List String)) (rel : List String)
    (hws : cx.workspace ≠ emptyGoPath) (hor : cx.openRootErr = none) :
    (isLocalComps (safeRelComps cx.workspace path) = false →
      sandboxFsReadFile cx path prim =
        .error ("path escapes workspace: " ++ goPathString path) ∧
      (sandboxFsWriteFile cx fsm path data nanos env).err =
        some ("path escapes workspace: " ++ goPathString path) ∧
      sandboxFsReadDir cx path priml =
        .error ("path escapes workspace: " ++ goPathString path)) ∧
    (getSafeRelPath cx.workspace path = .ok rel →
      (∃ m, sandboxFsReadFile cx path (.error .escapesParent) = .error m ∧
        strContains m "access denied" = true) ∧
      (env.mkdirFail = none → ∃ m,
        (sandboxFsWriteFile cx fsm path data nanos
          { env with writeTmpFail := some (none, .escapesParent) }).err = some m ∧
        strContains m "access denied" = false) ∧
      sandboxFsReadDir cx path (.error RootErr.escapesParent) =
        .error (rootErrMsg .escapesParent)) := by
  have hwb : (cx.workspace == emptyGoPath) = false := by
    simp only [beq_eq_false_iff_ne, ne_eq]
    exact hws
  constructor
  · intro hnl
    have hg : getSafeRelPath cx.workspace path =
        .error ("path escapes workspace: " ++ goPathString path) := by
      simp [getSafeRelPath, hwb, hnl]
    refine ⟨?_, ?_, ?_⟩
    · simp [sandboxFsReadFile, hwb, hor, hg]
    · simp [sandboxFsWriteFile, hwb, hor, hg]
    · simp [sandboxFsReadDir, hwb, hor, hg]
  · intro hok
    refine ⟨?_, ?_, ?_⟩
    · refine ⟨"failed to read file: access denied: " ++ rootErrMsg .escapesParent, ?_, by decide⟩
      simp [sandboxFsReadFile, hwb, hor, hok, rootErrMsg, strContains]
      decide
    · intro hm
      refine ⟨"failed to write to temp file: " ++ rootErrMsg .escapesParent, ?_, by decide⟩
      simp [sandboxFsWriteFile, hwb, hor, hok, hm]
    · simp [sandboxFsReadDir, hwb, hor, hok]

theorem sandbox_escape_failures_witness :
    (isLocalComps (safeRelComps { isAbs := true, comps := ["w"] }
        { isAbs := false, comps := ["..", "x"] }) = false →
      sandboxFsReadFile ⟨{ isAbs := true, comps := ["w"] }, none⟩
          { isAbs := false, comps := ["..", "x"] } (.ok []) =
        .error ("path escapes workspace: " ++
          goPathString { isAbs := false, comps := ["..", "x"] }) ∧
      (sandboxFsWriteFile ⟨{ isAbs := true, comps := ["w"] }, none⟩ []
          { isAbs := false, comps := ["..", "x"] } [1] 5 ⟨none, none, none⟩).err =
        some ("path escapes workspace: " ++
          goPathString { isAbs := false, comps := ["..", "x"] }) ∧
      sandboxFsReadDir ⟨{ isAbs := true, comps := ["w"] }, none⟩
          { isAbs := false, comps := ["..", "x"] } (.ok []) =
        .error ("path escapes workspace: " ++
          goPathString { isAbs := false, comps := ["..", "x"] })) ∧
    (getSafeRelPath { isAbs := true, comps := ["w"] }
        { isAbs := false, comps := ["..", "x"] } = .ok [] →
      (∃ m, sandboxFsReadFile ⟨{ isAbs := true, comps := ["w"] }, none⟩
          { isAbs := false, comps := ["..", "x"] } (.error .escapesParent) = .error m ∧
        strContains m "access denied" = true) ∧
      ((⟨none, none, none⟩ : WriteEnv RootErr).mkdirFail = none → ∃ m,
        (sandboxFsWriteFile ⟨{ isAbs := true, comps := ["w"] }, none⟩ []
          { isAbs := false, comps := ["..", "x"] } [1] 5
          { (⟨none, none, none⟩ : WriteEnv RootErr) with
            writeTmpFail := some (none, .escapesParent) }).err = some m ∧
        strContains m "access denied" = false) ∧
      sandboxFsReadDir ⟨{ isAbs := true, comps := ["w"] }, none⟩
          { isAbs := false, comps := ["..", "x"] } (.error RootErr.escapesParent) =
        .error (rootErrMsg .escapesParent)) :=
  sandbox_escape_failures ⟨{ isAbs := true, comps := ["w"] }, none⟩
    { isAbs := false, comps := ["..", "x"] } [] [1] 5 ⟨none, none, none⟩ (.ok []) (.ok [])
    [] (by decide) rfl
